import Mathlib

/-!
# go-mpesa: phone-number normalisation, the authenticated client and the `/c2b` relay

A shallow embedding of `main.go`.  Go strings are byte sequences, Go's
`(value, error)` results are pairs whose second component is `none` for a nil
error, and a Go panic is the `error` side of `Except GoPanic`.  Code of the Go
standard library and of gin that the program calls is modelled by what it does
to the values the program can observe; the two library functions whose result
depends on data this file cannot compute (URL parsing and JSON marshalling) are
fields of `Env`.
-/

namespace GoMpesa

/-! ## Strings and constants -/

/-- A Go string: a sequence of bytes, whose length is the number of bytes. -/
abbrev GoString := List UInt8

/-- The bytes of a string constant of the source text (Go source is UTF-8). -/
def lit (s : String) : GoString := s.toUTF8.data.toList

/-- Constant `businessShortCode` of `main.go`. -/
def businessShortCode : Int := 600982

/-- Constant `commandId` of `main.go`. -/
def commandId : GoString := lit "CustomerBuyGoodsOnline"

/-- Constant `url` of `main.go`. -/
def url : GoString := lit "https://sandbox.safaricom.co.ke/mpesa/c2b/v1/simulate"

/-! ## Errors -/

/-- Struct `InvalidPhonenumber` of `main.go`. -/
structure InvalidPhonenumber where
  message : GoString
  deriving DecidableEq

/-- Method `InvalidPhonenumber.Error` (value receiver). -/
def InvalidPhonenumber.Error (e : InvalidPhonenumber) : GoString :=
  lit "The phonenumber provided is invalid. " ++ e.message

/-- A non-nil value of Go's `error` interface, told apart by its dynamic type.
`invalidPhonenumber e` has dynamic type `main.InvalidPhonenumber` (the struct
itself), `invalidPhonenumberPtr e` has dynamic type `*main.InvalidPhonenumber`
(a pointer to the struct `e`), `wrapped m inner` is an error of some other type
whose `Unwrap` method returns `inner`, and `other m` is an error of some other
type without `Unwrap` or `As` methods. -/
inductive GoError where
  | invalidPhonenumber (e : InvalidPhonenumber)
  | invalidPhonenumberPtr (e : InvalidPhonenumber)
  | wrapped (msg : GoString) (inner : GoError)
  | other (msg : GoString)
  deriving DecidableEq

/-- The loop of `errors.As` for a target of type `**InvalidPhonenumber`: walk
the `Unwrap` chain and stop at the first error whose dynamic type is assignable
to `*InvalidPhonenumber`.  The struct type `InvalidPhonenumber` is not
assignable to the pointer type, so a struct-valued error does not match. -/
def GoError.asPtrInvalidPhonenumber : GoError → Option InvalidPhonenumber
  | .invalidPhonenumber _ => none
  | .invalidPhonenumberPtr e => some e
  | .wrapped _ inner => inner.asPtrInvalidPhonenumber
  | .other _ => none

/-- Call `errors.As(err, &invalidPhonenumber)` where `invalidPhonenumber` has the
type `*InvalidPhonenumber`, as declared in `NumberPreformatter`.  The result is
`some e` when `As` returns true and leaves the variable pointing at `e`, and
`none` when `As` returns false (in particular for a nil `err`). -/
def errors.As (err : Option GoError) : Option InvalidPhonenumber :=
  match err with
  | none => none
  | some e => e.asPtrInvalidPhonenumber

/-- A Go panic raised by the program or by the runtime. -/
inductive GoPanic where
  | message (m : GoString)
  | nilMapAssignment
  | missingKey (key : GoString)
  | typeAssertion
  deriving DecidableEq

/-! ## Data model -/

/-- Struct `push` of `main.go`. -/
structure push where
  Phone : GoString
  Amount : GoString
  deriving DecidableEq

/-- Struct `C2BRequest` of `main.go`. -/
structure C2BRequest where
  ShortCode : Int
  CommandID : GoString
  Amount : GoString
  Msisdn : GoString
  BillRefNumber : GoString
  deriving DecidableEq

/-- The library behaviour the program depends on and this file does not compute:
whether `net/url` accepts a URL string (the only way `http.NewRequest` fails
here) and the bytes `json.Marshal` produces for a `C2BRequest`. -/
structure Env where
  urlParses : GoString → Bool
  jsonMarshal : C2BRequest → GoString

/-! ## Phone-number normalisation -/

/-- Function `preformatNumber` of `main.go`.  `phone[:1]` is `phone.take 1` and
`phone[1:]` is `phone.drop 1`; both are only evaluated for a length of at least
ten.  The second test compares the length taken on entry, `phoneLen`, and
slices the possibly rewritten string. -/
def preformatNumber (phone : GoString) : GoString × Option GoError :=
  let phoneLen := phone.length
  if phoneLen < 10 ∨ phone = lit "" then
    (lit "", some (.invalidPhonenumber
      { message := phone ++ lit " is less than 10 digits or is empty" }))
  else
    let phone1 :=
      if phoneLen = 10 ∧ phone.take 1 = lit "0" then lit "254" ++ phone.drop 1 else phone
    let phone2 :=
      if phoneLen = 13 ∧ phone1.take 1 = lit "+" then phone1.drop 1 else phone1
    (phone2, none)

/-! ## The authenticated client -/

namespace http

/-- Go's `http.Header`, a map from header name to the values added under it;
a name that is absent maps to no values. -/
abbrev Header := GoString → List GoString

/-- The header `make(http.Header)` creates. -/
def Header.empty : Header := fun _ => []

/-- Method `Header.Add`: append `value` to the values under `key`.  Go
canonicalises `key` first; the two keys this program adds, `Content-Type` and
`Authorization`, are already in canonical form. -/
def Header.Add (h : Header) (key value : GoString) : Header :=
  fun k => if k = key then h k ++ [value] else h k

/-- The fields of Go's `http.Request` the program sets or passes on.  `Body` is
`none` for a nil reader, `Header` is `none` for a nil map. -/
structure Request where
  Method : GoString
  URL : GoString
  Body : Option GoString
  Header : Option Header

/-- What reading a response body to its end gives: the bytes read and the read
error, if any. -/
structure BodyReader where
  data : GoString
  err : Option GoError
  deriving DecidableEq

/-- The fields of Go's `http.Response` the program can observe. -/
structure Response where
  StatusCode : Int
  Body : BodyReader
  deriving DecidableEq

/-- Go's `*http.Client` as this program sees it: how it answers a request, and
the requests it has been handed so far. -/
structure Client where
  respond : Request → Except GoError Response
  sent : List Request

/-- Method `http.Client.Do`: hand `req` over and return the answer. -/
def Client.Do (c : Client) (req : Request) : Except GoError Response × Client :=
  (c.respond req, { c with sent := c.sent ++ [req] })

/-- Function `http.NewRequest` for the methods `GET` and `POST`, which are valid
method names: it fails exactly when the URL does not parse, and otherwise
returns a request with a fresh, empty header. -/
def NewRequest (env : Env) (method url : GoString) (body : Option GoString) :
    Except GoError Request :=
  if env.urlParses url then
    .ok { Method := method, URL := url, Body := body, Header := some Header.empty }
  else
    .error (.other (lit "parse error"))

end http

/-- Function `ioutil.ReadAll` applied to a response body. -/
def ioutil.ReadAll (r : http.BodyReader) : GoString × Option GoError := (r.data, r.err)

/-- Struct `httpClient` of `main.go`. -/
structure httpClient where
  client : http.Client
  token : GoString

/-- Method `httpClient.Do` of `main.go`.  Returns the answer of the wrapped
client together with the receiver after the call.  Adding to a nil header map
panics. -/
def httpClient.Do (c : httpClient) (req : http.Request) :
    Except GoPanic (Except GoError http.Response × httpClient) :=
  match req.Header with
  | none => .error .nilMapAssignment
  | some h =>
    let h1 := h.Add (lit "Content-Type") (lit "application/json")
    let h2 := h1.Add (lit "Authorization") (lit "Bearer " ++ c.token)
    let r := c.client.Do { req with Header := some h2 }
    .ok (r.1, { c with client := r.2 })

/-- Method `httpClient.Get` of `main.go`. -/
def httpClient.Get (env : Env) (c : httpClient) (url : GoString) :
    Except GoPanic (Except GoError http.Response × httpClient) :=
  match http.NewRequest env (lit "GET") url none with
  | .error _ => .error (.message (lit "An error occured forming GET request"))
  | .ok req => c.Do req

/-- Method `httpClient.Post` of `main.go`. -/
def httpClient.Post (env : Env) (c : httpClient) (url : GoString) (body : Option GoString) :
    Except GoPanic (Except GoError http.Response × httpClient) :=
  match http.NewRequest env (lit "POST") url body with
  | .error _ => .error (.message (lit "An error occured forming POST request"))
  | .ok req => c.Do req

/-! ## The gin context -/

/-- A value stored in the context under a key (Go's `interface{}`): a `push`
struct, or a value of some other type. -/
inductive Any where
  | push (p : push)
  | other
  deriving DecidableEq

/-- The object handed to `IndentedJSON`: `gin.H` with the single key `message`,
or a bare string. -/
inductive Payload where
  | H (message : GoString)
  | str (s : GoString)
  deriving DecidableEq

/-- One write to the response: a status code and, for a rendered object, the
object.  `obj = none` is a status line written without a body. -/
structure Emission where
  code : Int
  obj : Option Payload
  deriving DecidableEq

/-- An inbound request, represented by what decoding its body as JSON into a
zero `push` gives: the struct after decoding, and the decoding error if any. -/
structure InboundRequest where
  decoded : push
  decodeErr : Option GoError
  deriving DecidableEq

namespace gin

/-- The parts of `gin.Context` the handlers use: the request, the key/value
store, the errors attached, the writes made to the response in order, and
whether the handler chain has been aborted. -/
structure Context where
  Request : InboundRequest
  Keys : GoString → Option Any
  Errors : List GoError
  written : List Emission
  aborted : Bool

/-- The context gin hands to the first handler of a request. -/
def Context.new (req : InboundRequest) : Context :=
  { Request := req, Keys := fun _ => none, Errors := [], written := [], aborted := false }

/-- Method `Context.IndentedJSON`: render `obj` with status `code`. -/
def Context.IndentedJSON (ctx : Context) (code : Int) (obj : Payload) : Context :=
  { ctx with written := ctx.written ++ [{ code := code, obj := some obj }] }

/-- Method `Context.AbortWithError`: write the status line, abort the chain and
attach the error. -/
def Context.AbortWithError (ctx : Context) (code : Int) (err : GoError) : Context :=
  { ctx with
    written := ctx.written ++ [{ code := code, obj := none }]
    aborted := true
    Errors := ctx.Errors ++ [err] }

/-- Method `Context.BindJSON`, which is `MustBindWith(obj, binding.JSON)`: decode
the body into the struct and, when decoding fails, call
`AbortWithError(http.StatusBadRequest, err)` before returning the error. -/
def Context.BindJSON (ctx : Context) : push × Option GoError × Context :=
  match ctx.Request.decodeErr with
  | none => (ctx.Request.decoded, none, ctx)
  | some e => (ctx.Request.decoded, some e, ctx.AbortWithError 400 e)

/-- Method `Context.Set`. -/
def Context.Set (ctx : Context) (key : GoString) (value : Any) : Context :=
  { ctx with Keys := fun k => if k = key then some value else ctx.Keys k }

/-- Method `Context.MustGet`: the value under `key`, or a panic when absent. -/
def Context.MustGet (ctx : Context) (key : GoString) : Except GoPanic Any :=
  match ctx.Keys key with
  | some v => .ok v
  | none => .error (.missingKey key)

end gin

/-- A handler: it transforms the context and may use the outbound client. -/
abbrev Handler := gin.Context → http.Client → Except GoPanic (gin.Context × http.Client)

/-- Method `Context.Next`, called from a handler that is followed by the handler
`next`: run `next` unless the chain has been aborted. -/
def gin.Context.Next (ctx : gin.Context) (next : Handler) (net : http.Client) :
    Except GoPanic (gin.Context × http.Client) :=
  if ctx.aborted then .ok (ctx, net) else next ctx net

/-! ## The two stages -/

/-- The handler `NumberPreformatter()` of `main.go` returns, followed in the
chain by `next`. -/
def NumberPreformatter (next : Handler) : Handler := fun ctx net =>
  let b := ctx.BindJSON
  let pushDetails := b.1
  let ctx1 :=
    match b.2.1 with
    | some _ =>
      b.2.2.IndentedJSON 500 (.H (lit "A binding error occurred, required field: phone"))
    | none => b.2.2
  let r := preformatNumber pushDetails.Phone
  let phoneNumber := r.1
  let ctx2 :=
    match errors.As r.2 with
    | some invalidPhonenumber =>
      ctx1.IndentedJSON 400 (.H (lit "The phonenumber " ++ pushDetails.Phone ++
        lit " provided is not valid. " ++ invalidPhonenumber.message))
    | none => ctx1
  let pushDetails1 := { pushDetails with Phone := phoneNumber }
  let ctx3 := ctx2.Set (lit "details") (.push pushDetails1)
  ctx3.Next next net

/-- The handler `c2b` of `main.go`; `net` is the `http.Client` it creates. -/
def c2b (env : Env) : Handler := fun ctx net =>
  match ctx.MustGet (lit "details") with
  | .error p => .error p
  | .ok (.other) => .error .typeAssertion
  | .ok (.push pushDetails) =>
    let client : httpClient := { client := net, token := lit "rEYc7jqeN4SNIuA4CTpkDMTDO6w9" }
    let payload : C2BRequest :=
      { ShortCode := businessShortCode
        CommandID := commandId
        Amount := pushDetails.Amount
        Msisdn := pushDetails.Phone
        BillRefNumber := lit "" }
    let c2bBytes := env.jsonMarshal payload
    match client.Post env url (some c2bBytes) with
    | .error p => .error p
    | .ok (.error _, client1) =>
      .ok (ctx.IndentedJSON 500
        (.str (lit "Something went wrong while trying to create new c2b request")),
        client1.client)
    | .ok (.ok res, client1) =>
      match ioutil.ReadAll res.Body with
      | (_, some _) =>
        .ok (ctx.IndentedJSON 500
          (.str (lit "Something went wrong while reading Mpesa C2B response")),
          client1.client)
      | (body, none) =>
        .ok (ctx.IndentedJSON 202 (.H body), client1.client)

/-- The chain `main` registers for `POST /c2b`: `NumberPreformatter` (added with
`router.Use`) followed by `c2b`, run on a fresh context.  The logging and
recovery handlers of `gin.Default()` come first and hand the context on as it
is; a panic of the chain is kept as the `error` result. -/
def main_c2b (env : Env) (req : InboundRequest) (net : http.Client) :
    Except GoPanic (gin.Context × http.Client) :=
  NumberPreformatter (c2b env) (gin.Context.new req) net

/-! ## Vocabulary of the statements -/

/-- The result `out` of a call on the authenticated client `c` hands exactly one
request to the wrapped client, returns that client's answer to it, and the
request handed over has the given method, URL and body, carries the bearer token
under `Authorization` and `application/json` under `Content-Type`, and still
carries every value of the header `h`. -/
def httpClient.HandsOver (c : httpClient)
    (out : Except GoPanic (Except GoError http.Response × httpClient))
    (method url : GoString) (body : Option GoString) (h : http.Header) : Prop :=
  ∃ (sent : http.Request) (h1 : http.Header),
    out = .ok (c.client.respond sent,
      { c with client := { c.client with sent := c.client.sent ++ [sent] } }) ∧
    sent.Method = method ∧ sent.URL = url ∧ sent.Body = body ∧
    sent.Header = some h1 ∧
    lit "Bearer " ++ c.token ∈ h1 (lit "Authorization") ∧
    lit "application/json" ∈ h1 (lit "Content-Type") ∧
    ∀ k v, v ∈ h k → v ∈ h1 k

/-! ## Concrete inputs -/

namespace Example

/-- A library environment in which every URL parses and `json.Marshal` lists the
fields of the payload one per line. -/
def env : Env :=
  { urlParses := fun _ => true
    jsonMarshal := fun r =>
      r.CommandID ++ [10] ++ r.Amount ++ [10] ++ r.Msisdn ++ [10] ++ r.BillRefNumber }

/-- An upstream that answers every request with status 200 and body `OK`. -/
def upstreamOK : http.Client :=
  { respond := fun _ => .ok { StatusCode := 200, Body := { data := lit "OK", err := none } }
    sent := [] }

/-- An upstream that fails every request. -/
def upstreamDown : http.Client :=
  { respond := fun _ => .error (.other (lit "connection refused"))
    sent := [] }

/-- The request whose body is the JSON object with phone `0712345678` and
amount `100`. -/
def validRequest : InboundRequest :=
  { decoded := { Phone := lit "0712345678", Amount := lit "100" }, decodeErr := none }

/-- The request whose body is the JSON object with phone `123` and amount
`100`. -/
def shortPhoneRequest : InboundRequest :=
  { decoded := { Phone := lit "123", Amount := lit "100" }, decodeErr := none }

/-- A request whose body is not JSON: decoding fails and leaves the struct
zero. -/
def malformedRequest : InboundRequest :=
  { decoded := { Phone := lit "", Amount := lit "" }
    decodeErr := some (.other (lit "invalid character")) }

/-- A request built by hand that already carries an `Accept` header. -/
def putRequest : http.Request :=
  { Method := lit "PUT"
    URL := lit "https://example.org/x"
    Body := some (lit "body")
    Header := some (http.Header.empty.Add (lit "Accept") (lit "text/plain")) }

/-- An authenticated client over `upstreamOK` with the token `tok`. -/
def client : httpClient := { client := upstreamOK, token := lit "tok" }

end Example

/-! ## Facts about the string constants -/

theorem lit_empty : lit "" = [] := by decide

theorem lit_zero : lit "0" = [48] := by decide

theorem lit_plus : lit "+" = [43] := by decide

theorem lit_254 : lit "254" = [50, 53, 52] := by decide

/-- Shape of `preformatNumber` on an input of at least ten bytes. -/
theorem preformatNumber_of_ge (s : GoString) (h : 10 ≤ s.length) :
    preformatNumber s =
      (if s.length = 10 ∧ s.take 1 = [48] then [50, 53, 52] ++ s.drop 1
       else if s.length = 13 ∧ s.take 1 = [43] then s.drop 1 else s, none) := by
  have hne : s ≠ [] := by
    intro h0
    rw [h0] at h
    simp at h
  have hlt : ¬ s.length < 10 := by omega
  unfold preformatNumber
  simp only [lit_empty, lit_zero, lit_plus, lit_254, hlt, hne, or_self, if_false]
  by_cases h10 : s.length = 10 ∧ s.take 1 = [48]
  · have h13 : ¬ s.length = 13 := by omega
    simp [h10, h13]
  · simp only [h10, if_false]

/-- Shape of `preformatNumber` on an input that its first test rejects. -/
theorem preformatNumber_of_short (phone : GoString)
    (h : phone.length < 10 ∨ phone = lit "") :
    preformatNumber phone =
      (lit "", some (.invalidPhonenumber
        { message := phone ++ lit " is less than 10 digits or is empty" })) := by
  unfold preformatNumber
  simp only [h, if_true]

/-! ## Claims on `preformatNumber` -/

/-- C1: every string that is empty or shorter than 10 bytes is rejected:
`preformatNumber` returns the empty string together with an `InvalidPhonenumber`
error (whose message names the input). -/
theorem C1_rejects_short (phone : GoString) (h : phone = lit "" ∨ phone.length < 10) :
    preformatNumber phone =
      (lit "", some (.invalidPhonenumber
        { message := phone ++ lit " is less than 10 digits or is empty" })) := by
  rcases h with h | h
  · exact preformatNumber_of_short phone (Or.inr h)
  · exact preformatNumber_of_short phone (Or.inl h)

/-- Witness of C1 at the empty string and at `12345`. -/
theorem C1_rejects_short_witness :
    (preformatNumber (lit "") =
      (lit "", some (.invalidPhonenumber
        { message := lit "" ++ lit " is less than 10 digits or is empty" }))) ∧
    (preformatNumber (lit "12345") =
      (lit "", some (.invalidPhonenumber
        { message := lit "12345" ++ lit " is less than 10 digits or is empty" }))) :=
  ⟨C1_rejects_short (lit "") (Or.inl rfl), C1_rejects_short (lit "12345") (Or.inr (by decide))⟩

/-- C2: a string of exactly 10 bytes that starts with `0` is accepted and
becomes `254` followed by its last 9 bytes, a string of 12 bytes. -/
theorem C2_local_format (s : GoString) (hlen : s.length = 10) (h0 : s.take 1 = lit "0") :
    preformatNumber s = (lit "254" ++ s.drop (s.length - 9), none) ∧
      (s.drop (s.length - 9)).length = 9 ∧
      (preformatNumber s).1.length = 12 := by
  have hp := preformatNumber_of_ge s (by omega)
  rw [lit_zero] at h0
  have hc : s.length = 10 ∧ s.take 1 = [48] := ⟨hlen, h0⟩
  rw [if_pos hc] at hp
  have hd : s.length - 9 = 1 := by omega
  rw [hp, hd, lit_254]
  refine ⟨rfl, ?_, ?_⟩
  · simp [hlen]
  · simp [hlen]

/-- Witness of C2 at `0712345678`. -/
theorem C2_local_format_witness :
    preformatNumber (lit "0712345678") = (lit "254712345678", none) :=
  (C2_local_format (lit "0712345678") (by decide) (by decide)).1

/-- C3: a string of exactly 13 bytes that starts with `+` is accepted and
returned without that first byte, the other 12 bytes unchanged. -/
theorem C3_strip_plus (s : GoString) (hlen : s.length = 13) (h0 : s.take 1 = lit "+") :
    preformatNumber s = (s.drop 1, none) ∧
      lit "+" ++ s.drop 1 = s ∧
      (s.drop 1).length = 12 := by
  have hp := preformatNumber_of_ge s (by omega)
  have h0b : s.take 1 = [43] := by rw [h0, lit_plus]
  have hn : ¬ (s.length = 10 ∧ s.take 1 = [48]) := by omega
  have hc : s.length = 13 ∧ s.take 1 = [43] := ⟨hlen, h0b⟩
  rw [if_neg hn, if_pos hc] at hp
  refine ⟨hp, ?_, ?_⟩
  · rw [← h0]
    exact List.take_append_drop 1 s
  · simp [hlen]

/-- Witness of C3 at `+254712345678`. -/
theorem C3_strip_plus_witness :
    preformatNumber (lit "+254712345678") = (lit "254712345678", none) :=
  (C3_strip_plus (lit "+254712345678") (by decide) (by decide)).1

/-- C4: no string of at least 10 bytes is rejected, and one that is neither
(10 bytes starting with `0`) nor (13 bytes starting with `+`) is returned
unchanged. -/
theorem C4_pass_through (s : GoString) (hlen : 10 ≤ s.length) :
    (preformatNumber s).2 = none ∧
      (¬ (s.length = 10 ∧ s.take 1 = lit "0") →
        ¬ (s.length = 13 ∧ s.take 1 = lit "+") →
        preformatNumber s = (s, none)) := by
  have hp := preformatNumber_of_ge s hlen
  refine ⟨by rw [hp], ?_⟩
  intro h10 h13
  rw [lit_zero] at h10
  rw [lit_plus] at h13
  rw [if_neg h10, if_neg h13] at hp
  exact hp

/-- Witness of C4 at `254712345678`. -/
theorem C4_pass_through_witness :
    preformatNumber (lit "254712345678") = (lit "254712345678", none) :=
  (C4_pass_through (lit "254712345678") (by decide)).2 (by decide) (by decide)

/-- C10: `preformatNumber` is idempotent on what it accepts: when it returns `r`
without error, it returns `r` without error on `r` as well. -/
theorem C10_idempotent (s r : GoString) (h : preformatNumber s = (r, none)) :
    preformatNumber r = (r, none) := by
  by_cases hlen : 10 ≤ s.length
  · have hp := preformatNumber_of_ge s hlen
    rw [hp] at h
    have hr : (if s.length = 10 ∧ s.take 1 = [48] then [50, 53, 52] ++ s.drop 1
        else if s.length = 13 ∧ s.take 1 = [43] then s.drop 1 else s) = r :=
      congrArg Prod.fst h
    by_cases h10 : s.length = 10 ∧ s.take 1 = [48]
    · rw [if_pos h10] at hr
      have hrl : r.length = 12 := by
        rw [← hr]
        simp [h10.1]
      have hq := preformatNumber_of_ge r (by omega)
      rw [if_neg (by omega), if_neg (by omega)] at hq
      exact hq
    · rw [if_neg h10] at hr
      by_cases h13 : s.length = 13 ∧ s.take 1 = [43]
      · rw [if_pos h13] at hr
        have hrl : r.length = 12 := by
          rw [← hr]
          simp [h13.1]
        have hq := preformatNumber_of_ge r (by omega)
        rw [if_neg (by omega), if_neg (by omega)] at hq
        exact hq
      · rw [if_neg h13] at hr
        subst hr
        rw [if_neg h10, if_neg h13] at hp
        exact hp
  · have hs := preformatNumber_of_short s (Or.inl (by omega))
    rw [hs] at h
    have h2 := congrArg Prod.snd h
    simp at h2

/-- Witness of C10 at `0712345678`, whose result `254712345678` is a fixed
point. -/
theorem C10_idempotent_witness :
    preformatNumber (lit "0712345678") = (lit "254712345678", none) ∧
      preformatNumber (lit "254712345678") = (lit "254712345678", none) :=
  ⟨by decide, C10_idempotent (lit "0712345678") (lit "254712345678") (by decide)⟩

/-! ## The authenticated client -/

/-- What `httpClient.Do` returns on a request whose header map is allocated. -/
theorem httpClient_Do_handsOver (c : httpClient) (req : http.Request) (h : http.Header)
    (hh : req.Header = some h) :
    c.HandsOver (c.Do req) req.Method req.URL req.Body h := by
  refine ⟨{ req with Header := some ((h.Add (lit "Content-Type") (lit "application/json")).Add
      (lit "Authorization") (lit "Bearer " ++ c.token)) }, _, ?_, rfl, rfl, rfl, rfl, ?_, ?_, ?_⟩
  · unfold httpClient.Do
    rw [hh]
    rfl
  · simp [http.Header.Add]
  · unfold http.Header.Add
    have hne : lit "Content-Type" ≠ lit "Authorization" := by decide
    simp [hne]
  · intro k v hv
    unfold http.Header.Add
    by_cases h1 : k = lit "Authorization" <;> by_cases h2 : k = lit "Content-Type" <;>
      simp [h1, h2] <;> simp_all

/-- C7: a request sent through `httpClient.Do`, `httpClient.Get` or
`httpClient.Post` with token `t` reaches the wrapped client exactly once, with
`Bearer t` under `Authorization` and `application/json` under `Content-Type`,
with its method, URL and body unchanged, and with every header value it already
carried. -/
theorem C7_authenticated_request (env : Env) (c : httpClient) (req : http.Request)
    (h : http.Header) (u : GoString) (body : Option GoString)
    (hh : req.Header = some h) (hu : env.urlParses u = true) :
    c.HandsOver (c.Do req) req.Method req.URL req.Body h ∧
      c.HandsOver (c.Get env u) (lit "GET") u none http.Header.empty ∧
      c.HandsOver (c.Post env u body) (lit "POST") u body http.Header.empty := by
  refine ⟨httpClient_Do_handsOver c req h hh, ?_, ?_⟩
  · have hg : c.Get env u =
        c.Do { Method := lit "GET", URL := u, Body := none, Header := some http.Header.empty } := by
      simp [httpClient.Get, http.NewRequest, hu]
    rw [hg]
    exact httpClient_Do_handsOver c _ http.Header.empty rfl
  · have hg : c.Post env u body =
        c.Do { Method := lit "POST", URL := u, Body := body,
               Header := some http.Header.empty } := by
      simp [httpClient.Post, http.NewRequest, hu]
    rw [hg]
    exact httpClient_Do_handsOver c _ http.Header.empty rfl

/-- Witness of C7: a hand-built `PUT` request that carries an `Accept` header,
and a `GET` and a `POST` to the provider URL, through the client with token
`tok`. -/
theorem C7_authenticated_request_witness :
    (Example.putRequest.Header =
        some (http.Header.empty.Add (lit "Accept") (lit "text/plain")) ∧
      Example.env.urlParses url = true) ∧
    (Example.client.HandsOver (Example.client.Do Example.putRequest)
        (lit "PUT") (lit "https://example.org/x") (some (lit "body"))
        (http.Header.empty.Add (lit "Accept") (lit "text/plain")) ∧
      Example.client.HandsOver (Example.client.Get Example.env url)
        (lit "GET") url none http.Header.empty ∧
      Example.client.HandsOver (Example.client.Post Example.env url (some (lit "x")))
        (lit "POST") url (some (lit "x")) http.Header.empty) :=
  ⟨⟨rfl, rfl⟩,
    C7_authenticated_request Example.env Example.client Example.putRequest
      (http.Header.empty.Add (lit "Accept") (lit "text/plain")) url (some (lit "x")) rfl rfl⟩

/-! ## The preprocessing stage -/

/-- The error `preformatNumber` returns never matches the target of the
`errors.As` call in `NumberPreformatter`: it is nil or a struct value, never a
pointer. -/
theorem errors_As_preformatNumber (phone : GoString) :
    errors.As (preformatNumber phone).2 = none := by
  by_cases hlen : 10 ≤ phone.length
  · rw [preformatNumber_of_ge phone hlen]
    rfl
  · rw [preformatNumber_of_short phone (Or.inl (by omega))]
    rfl

/-- The error of `preformatNumber` comes with the empty string. -/
theorem preformatNumber_fst_of_err (phone : GoString) (h : (preformatNumber phone).2 ≠ none) :
    (preformatNumber phone).1 = lit "" := by
  by_cases hlen : 10 ≤ phone.length
  · rw [preformatNumber_of_ge phone hlen] at h
    exact absurd rfl h
  · rw [preformatNumber_of_short phone (Or.inl (by omega))]

/-- The context `NumberPreformatter` reaches before it calls `Next`. -/
theorem NumberPreformatter_eq (next : Handler) (ctx : gin.Context) (net : http.Client) :
    NumberPreformatter next ctx net =
      (gin.Context.Set
        (match ctx.Request.decodeErr with
          | none => ctx
          | some e => (ctx.AbortWithError 400 e).IndentedJSON 500
              (.H (lit "A binding error occurred, required field: phone")))
        (lit "details")
        (.push { Phone := (preformatNumber ctx.Request.decoded.Phone).1,
                 Amount := ctx.Request.decoded.Amount })).Next next net := by
  unfold NumberPreformatter
  simp only [errors_As_preformatNumber]
  unfold gin.Context.BindJSON
  cases ctx.Request.decodeErr <;> rfl

/-- C5, the code at the failing input: for the request with phone `123`, whose
normalisation fails with an `InvalidPhonenumber` error, `NumberPreformatter`
writes nothing to the response (no 400), stores the empty phone under `details`
and runs the next stage; with the upstream answering, the whole chain ends in a
single 202. -/
theorem C5_short_phone_no_400 :
    (preformatNumber (lit "123")).2 =
        some (.invalidPhonenumber
          { message := lit "123" ++ lit " is less than 10 digits or is empty" }) ∧
      (∀ (next : Handler) (net : http.Client),
        NumberPreformatter next (gin.Context.new Example.shortPhoneRequest) net =
          next ((gin.Context.new Example.shortPhoneRequest).Set (lit "details")
            (.push { Phone := lit "", Amount := lit "100" })) net) ∧
      ((gin.Context.new Example.shortPhoneRequest).Set (lit "details")
            (.push { Phone := lit "", Amount := lit "100" })).written = [] ∧
      (∃ out, main_c2b Example.env Example.shortPhoneRequest Example.upstreamOK = .ok out ∧
        out.1.written = [{ code := 202, obj := some (.H (lit "OK")) }]) := by
  refine ⟨by decide, ?_, rfl, ⟨_, rfl, rfl⟩⟩
  intro next net
  rw [NumberPreformatter_eq]
  rfl

/-- C9, as stated, fails: it is not true that for every request the next stage
is run on the context that holds the stored details.  For a request whose body
does not decode, `BindJSON` has aborted the chain and `Next` returns without
running the next stage. -/
theorem C9_next_stage_not_always_run :
    ¬ ∀ (next : Handler) (ctx : gin.Context) (net : http.Client), ctx.aborted = false →
      ∃ ctx1 : gin.Context,
        ctx1.Keys (lit "details") =
          some (.push { Phone := (preformatNumber ctx.Request.decoded.Phone).1,
                        Amount := ctx.Request.decoded.Amount }) ∧
        NumberPreformatter next ctx net = next ctx1 net := by
  intro h
  obtain ⟨ctx1, -, heq⟩ := h (fun _ _ => .error .typeAssertion)
    (gin.Context.new Example.malformedRequest) Example.upstreamOK rfl
  rw [NumberPreformatter_eq] at heq
  cases heq

/-- C9, amended: on every request `NumberPreformatter` runs to its end.  It
stores under `details` a `push` whose `Phone` is the string `preformatNumber`
returned for the decoded phone (the empty string when validation failed) and
whose `Amount` is the decoded amount, and then calls `Next`: the next stage runs
on that context when the body decoded, also when the phone failed validation,
and is not run when the body failed to decode. -/
theorem C9_stores_then_calls_next (next : Handler) (ctx : gin.Context) (net : http.Client)
    (hfresh : ctx.aborted = false) :
    ∃ ctx1 : gin.Context,
      ctx1.Keys (lit "details") =
        some (.push { Phone := (preformatNumber ctx.Request.decoded.Phone).1,
                      Amount := ctx.Request.decoded.Amount }) ∧
      ((preformatNumber ctx.Request.decoded.Phone).2 ≠ none →
        (preformatNumber ctx.Request.decoded.Phone).1 = lit "") ∧
      NumberPreformatter next ctx net = ctx1.Next next net ∧
      (ctx.Request.decodeErr = none → NumberPreformatter next ctx net = next ctx1 net) ∧
      (ctx.Request.decodeErr ≠ none → NumberPreformatter next ctx net = .ok (ctx1, net)) := by
  refine ⟨_, ?_, preformatNumber_fst_of_err _, NumberPreformatter_eq next ctx net, ?_, ?_⟩
  · simp [gin.Context.Set]
  · intro hd
    rw [NumberPreformatter_eq, hd]
    simp [gin.Context.Next, gin.Context.Set, hfresh]
  · intro hd
    rw [NumberPreformatter_eq]
    cases he : ctx.Request.decodeErr with
    | none => exact absurd he hd
    | some e => rfl

/-- Witness of C9 on the request with phone `123` (validation fails, the next
stage runs) and on a request that does not decode (the next stage is not
run). -/
theorem C9_stores_then_calls_next_witness :
    (gin.Context.new Example.shortPhoneRequest).aborted = false ∧
    (∃ ctx1 : gin.Context,
      ctx1.Keys (lit "details") = some (.push { Phone := lit "", Amount := lit "100" }) ∧
      NumberPreformatter (c2b Example.env) (gin.Context.new Example.shortPhoneRequest)
        Example.upstreamOK = c2b Example.env ctx1 Example.upstreamOK) ∧
    (∃ ctx1 : gin.Context,
      ctx1.Keys (lit "details") = some (.push { Phone := lit "", Amount := lit "" }) ∧
      NumberPreformatter (c2b Example.env) (gin.Context.new Example.malformedRequest)
        Example.upstreamOK = .ok (ctx1, Example.upstreamOK)) := by
  refine ⟨rfl, ?_, ?_⟩
  · obtain ⟨ctx1, hk, -, -, hrun, -⟩ := C9_stores_then_calls_next (c2b Example.env)
      (gin.Context.new Example.shortPhoneRequest) Example.upstreamOK rfl
    exact ⟨ctx1, hk, hrun rfl⟩
  · obtain ⟨ctx1, hk, -, -, -, hstop⟩ := C9_stores_then_calls_next (c2b Example.env)
      (gin.Context.new Example.malformedRequest) Example.upstreamOK rfl
    exact ⟨ctx1, hk, hstop (by decide)⟩

/-! ## The endpoint -/

/-- What `c2b` does on a context that holds a `push` under `details`, when the
provider URL parses: it hands one `POST` carrying the marshalled payload to the
client and answers according to the outcome. -/
theorem c2b_eq (env : Env) (ctx : gin.Context) (net : http.Client) (p : push)
    (hk : ctx.Keys (lit "details") = some (.push p)) (hu : env.urlParses url = true) :
    ∃ sent : http.Request,
      sent.Method = lit "POST" ∧ sent.URL = url ∧
      sent.Body = some (env.jsonMarshal
        { ShortCode := 600982, CommandID := lit "CustomerBuyGoodsOnline",
          Amount := p.Amount, Msisdn := p.Phone, BillRefNumber := lit "" }) ∧
      c2b env ctx net =
        .ok (match net.respond sent with
          | .error _ => ctx.IndentedJSON 500
              (.str (lit "Something went wrong while trying to create new c2b request"))
          | .ok res =>
            match res.Body.err with
            | some _ => ctx.IndentedJSON 500
                (.str (lit "Something went wrong while reading Mpesa C2B response"))
            | none => ctx.IndentedJSON 202 (.H res.Body.data),
          { net with sent := net.sent ++ [sent] }) := by
  refine ⟨{ Method := lit "POST", URL := url,
            Body := some (env.jsonMarshal
              { ShortCode := 600982, CommandID := lit "CustomerBuyGoodsOnline",
                Amount := p.Amount, Msisdn := p.Phone, BillRefNumber := lit "" }),
            Header := some ((http.Header.empty.Add (lit "Content-Type")
              (lit "application/json")).Add (lit "Authorization")
              (lit "Bearer " ++ lit "rEYc7jqeN4SNIuA4CTpkDMTDO6w9")) }, rfl, rfl, rfl, ?_⟩
  unfold c2b gin.Context.MustGet
  rw [hk]
  simp only [httpClient.Post, http.NewRequest, hu, if_true, httpClient.Do, http.Client.Do,
    ioutil.ReadAll, businessShortCode, commandId]
  cases hr : net.respond _ with
  | error e => rfl
  | ok res =>
    cases hb : res.Body.err with
    | none => simp [hr, hb]
    | some e => simp [hr, hb]

/-- Every branch of `c2b` after the call upstream returns normally, with the
request appended to those the client was handed. -/
theorem c2b_ok (env : Env) (ctx : gin.Context) (net : http.Client) (p : push)
    (hk : ctx.Keys (lit "details") = some (.push p)) (hu : env.urlParses url = true) :
    ∃ (sent : http.Request) (ctx1 : gin.Context),
      sent.Method = lit "POST" ∧ sent.URL = url ∧
      sent.Body = some (env.jsonMarshal
        { ShortCode := 600982, CommandID := lit "CustomerBuyGoodsOnline",
          Amount := p.Amount, Msisdn := p.Phone, BillRefNumber := lit "" }) ∧
      c2b env ctx net = .ok (ctx1, { net with sent := net.sent ++ [sent] }) ∧
      ∀ resp b, net.respond sent = .ok resp → ioutil.ReadAll resp.Body = (b, none) →
        ctx1 = ctx.IndentedJSON 202 (.H b) := by
  obtain ⟨sent, hm, hurl, hb, hc⟩ := c2b_eq env ctx net p hk hu
  refine ⟨sent, _, hm, hurl, hb, hc, ?_⟩
  intro resp b hr hread
  have hd : resp.Body.data = b := congrArg Prod.fst hread
  have he : resp.Body.err = none := congrArg Prod.snd hread
  simp only [hr, he, hd]

/-- C6: for a request whose body decodes to phone `p` and amount `a` and whose
phone normalises to `m`, the chain hands exactly one request upstream, a `POST`
to the provider URL whose body is the marshalled `C2BRequest` with
`ShortCode = 600982`, `CommandID = CustomerBuyGoodsOnline`, `Msisdn = m`,
`Amount = a` and an empty `BillRefNumber`. -/
theorem C6_outbound_payload (env : Env) (req : InboundRequest) (net : http.Client)
    (p a m : GoString)
    (hd : req.decodeErr = none) (hp : req.decoded = { Phone := p, Amount := a })
    (hm : preformatNumber p = (m, none)) (hu : env.urlParses url = true) :
    ∃ (sent : http.Request) (out : gin.Context × http.Client),
      main_c2b env req net = .ok out ∧
      out.2.sent = net.sent ++ [sent] ∧
      sent.Method = lit "POST" ∧ sent.URL = url ∧
      sent.Body = some (env.jsonMarshal
        { ShortCode := 600982, CommandID := lit "CustomerBuyGoodsOnline",
          Amount := a, Msisdn := m, BillRefNumber := lit "" }) := by
  have hrun : main_c2b env req net =
      c2b env ((gin.Context.new req).Set (lit "details")
        (.push { Phone := m, Amount := a })) net := by
    unfold main_c2b
    rw [NumberPreformatter_eq]
    simp only [gin.Context.new, hd, hp, hm]
    rfl
  obtain ⟨sent, ctx1, hmeth, hurl, hb, hc, -⟩ :=
    c2b_ok env ((gin.Context.new req).Set (lit "details")
      (.push { Phone := m, Amount := a })) net { Phone := m, Amount := a }
      (by simp [gin.Context.Set]) hu
  exact ⟨sent, _, hrun.trans hc, rfl, hmeth, hurl, hb⟩

/-- Witness of C6 on the request with phone `0712345678` and amount `100`. -/
theorem C6_outbound_payload_witness :
    (Example.validRequest.decodeErr = none ∧
      preformatNumber (lit "0712345678") = (lit "254712345678", none) ∧
      Example.env.urlParses url = true) ∧
    ∃ (sent : http.Request) (out : gin.Context × http.Client),
      main_c2b Example.env Example.validRequest Example.upstreamOK = .ok out ∧
      out.2.sent = Example.upstreamOK.sent ++ [sent] ∧
      sent.Method = lit "POST" ∧ sent.URL = url ∧
      sent.Body = some (Example.env.jsonMarshal
        { ShortCode := 600982, CommandID := lit "CustomerBuyGoodsOnline",
          Amount := lit "100", Msisdn := lit "254712345678", BillRefNumber := lit "" }) :=
  ⟨⟨rfl, by decide, rfl⟩,
    C6_outbound_payload Example.env Example.validRequest Example.upstreamOK
      (lit "0712345678") (lit "100") (lit "254712345678") rfl rfl (by decide) rfl⟩

/-- C8: once `c2b` has the stored details, it hands one request upstream, and
whenever the answer to it is a response whose body reads without error as `b`,
whatever its status code, `c2b` makes exactly one write to the response: status
202 with the object whose `message` is `b`. -/
theorem C8_relays_body (env : Env) (ctx : gin.Context) (net : http.Client) (p : push)
    (hk : ctx.Keys (lit "details") = some (.push p)) (hu : env.urlParses url = true) :
    ∃ (sent : http.Request) (out : gin.Context × http.Client),
      c2b env ctx net = .ok out ∧
      out.2.sent = net.sent ++ [sent] ∧
      ∀ resp b, net.respond sent = .ok resp → ioutil.ReadAll resp.Body = (b, none) →
        out.1 = { ctx with
          written := ctx.written ++ [{ code := 202, obj := some (.H b) }] } := by
  obtain ⟨sent, ctx1, -, -, -, hc, hrel⟩ := c2b_ok env ctx net p hk hu
  exact ⟨sent, _, hc, rfl, fun resp b hr hread => hrel resp b hr hread⟩

/-- Witness of C8: the valid request with an upstream that answers 200 and `OK`
ends in the single write 202 with message `OK`. -/
theorem C8_relays_body_witness :
    (((gin.Context.new Example.validRequest).Set (lit "details")
        (.push { Phone := lit "254712345678", Amount := lit "100" })).Keys (lit "details") =
        some (.push { Phone := lit "254712345678", Amount := lit "100" }) ∧
      Example.env.urlParses url = true) ∧
    (∃ out : gin.Context × http.Client,
      c2b Example.env ((gin.Context.new Example.validRequest).Set (lit "details")
        (.push { Phone := lit "254712345678", Amount := lit "100" })) Example.upstreamOK =
          .ok out ∧
      out.1.written = [{ code := 202, obj := some (.H (lit "OK")) }]) ∧
    (∃ out : gin.Context × http.Client,
      main_c2b Example.env Example.validRequest Example.upstreamOK = .ok out ∧
      out.1.written = [{ code := 202, obj := some (.H (lit "OK")) }]) := by
  refine ⟨⟨rfl, rfl⟩, ?_, ⟨_, rfl, rfl⟩⟩
  obtain ⟨sent, out, hc, -, hrel⟩ := C8_relays_body Example.env
    ((gin.Context.new Example.validRequest).Set (lit "details")
      (.push { Phone := lit "254712345678", Amount := lit "100" })) Example.upstreamOK
    { Phone := lit "254712345678", Amount := lit "100" } rfl rfl
  refine ⟨out, hc, ?_⟩
  rw [hrel { StatusCode := 200, Body := { data := lit "OK", err := none } } (lit "OK") rfl rfl]
  rfl

end GoMpesa
